import Mathlib

/-!
Verification development for the IncidentManager monitoring engine
(`src/full2.py`).  The engine's data model and operations are shallowly
embedded below: pure Python computations become Lean functions, the
remote-execution and metric channels become explicit oracle parameters,
and the monitoring-loop body becomes a pure `runCycle` function that
additionally records which pipeline stages it invoked.
-/

set_option linter.unusedVariables false

/-! ## Timestamps and the awk window filter

`count_logs` (full2.py lines 228–247) and `fetch_logs_window` (lines
272–308) format the window bounds with `strftime("%d/%b/%Y:%H:%M:%S")`
and then filter log lines remotely with
`awk 't = substr($4, 2, N); if (t >= start && t <= end) print'`,
i.e. a *lexical string comparison* of the textual timestamp field
(`N = 19` in `count_logs`, which drops the final digit of the seconds
field; `N = 20` in `fetch_logs_window`).  We embed the timestamp values,
the strftime formatting, and the awk string comparison.
-/

/-- A parsed log/window timestamp (a structured instant). Fields use the
conventional ranges `1 ≤ month ≤ 12`, `1 ≤ day ≤ 31`, `hour < 24`,
`minute < 60`, `second < 60`. -/
structure LogTime where
  year : Nat
  month : Nat
  day : Nat
  hour : Nat
  minute : Nat
  second : Nat
deriving DecidableEq, Repr

/-- Order-preserving numeric key of a parsed timestamp: chronological
order of valid timestamps is lexicographic on
(year, month, day, hour, minute, second), realised with radices that
bound each field. -/
def timeKey (t : LogTime) : Nat :=
  ((((t.year * 13 + t.month) * 32 + t.day) * 24 + t.hour) * 60 + t.minute) * 60 + t.second

/-- Comparison of *parsed* time values, the semantics the specification
requires for window filtering. -/
def chronLE (a b : LogTime) : Prop := timeKey a ≤ timeKey b

instance (a b : LogTime) : Decidable (chronLE a b) := by
  unfold chronLE; infer_instance

/-- Membership of a parsed timestamp in the closed window `[ws, we]`,
as the specification's "parsed timestamp lies in the closed interval". -/
def inParsedWindow (ws we t : LogTime) : Prop := chronLE ws t ∧ chronLE t we

instance (ws we t : LogTime) : Decidable (inParsedWindow ws we t) := by
  unfold inParsedWindow; infer_instance

/-- Zero-padded two-digit rendering of a field value (as strftime's
`%d`, `%H`, `%M`, `%S` produce for values below 100). -/
def pad2 (n : Nat) : List Char :=
  [Nat.digitChar (n / 10 % 10), Nat.digitChar (n % 10)]

/-- Four-digit rendering of the year (as strftime's `%Y` produces for
four-digit years). -/
def pad4 (n : Nat) : List Char :=
  [Nat.digitChar (n / 1000 % 10), Nat.digitChar (n / 100 % 10),
   Nat.digitChar (n / 10 % 10), Nat.digitChar (n % 10)]

/-- Month abbreviation as strftime's `%b` produces in the C locale. -/
def monthAbbrev : Nat → List Char
  | 1 => ['J', 'a', 'n']
  | 2 => ['F', 'e', 'b']
  | 3 => ['M', 'a', 'r']
  | 4 => ['A', 'p', 'r']
  | 5 => ['M', 'a', 'y']
  | 6 => ['J', 'u', 'n']
  | 7 => ['J', 'u', 'l']
  | 8 => ['A', 'u', 'g']
  | 9 => ['S', 'e', 'p']
  | 10 => ['O', 'c', 't']
  | 11 => ['N', 'o', 'v']
  | 12 => ['D', 'e', 'c']
  | _ => ['?', '?', '?']

/-- The textual timestamp produced by
`strftime("%d/%b/%Y:%H:%M:%S")` (full2.py lines 229–230 and 283–284);
the same 20-character text appears in the log line's `$4` field after
its leading bracket. -/
def fmtLogTime (t : LogTime) : List Char :=
  pad2 t.day ++ ['/'] ++ monthAbbrev t.month ++ ['/'] ++ pad4 t.year ++
    [':'] ++ pad2 t.hour ++ [':'] ++ pad2 t.minute ++ [':'] ++ pad2 t.second

/-- Byte-wise lexicographic string comparison `s <= t`, the comparison
awk applies to the non-numeric strings in `t >= start && t <= end`. -/
def lexLE : List Char → List Char → Bool
  | [], _ => true
  | _ :: _, [] => false
  | a :: as, b :: bs =>
      if a.toNat < b.toNat then true
      else if b.toNat < a.toNat then false
      else lexLE as bs

/-- Filter applied by `count_logs` (full2.py line 232): the line's
timestamp text is `substr($4, 2, 19)` — only 19 characters, dropping the
final digit of the seconds — and is compared lexically with the
20-character window bound strings. -/
def countFilterKeeps (ws we t : LogTime) : Bool :=
  let tstr := (fmtLogTime t).take 19
  lexLE (fmtLogTime ws) tstr && lexLE tstr (fmtLogTime we)

/-- Filter applied by `fetch_logs_window` (full2.py lines 288–293): the
line's timestamp text is `substr($4, 2, 20)` (the full 20 characters),
compared lexically with the window bound strings. -/
def fetchFilterKeeps (ws we t : LogTime) : Bool :=
  let tstr := (fmtLogTime t).take 20
  lexLE (fmtLogTime ws) tstr && lexLE tstr (fmtLogTime we)

/-! ## The three spike windows

`get_log_counts_for_sites` (full2.py lines 249–255) positions the
before/spike/after windows around the spike timestamp.  Timestamps in
the pipeline embedding are measured in whole seconds (`Int`), the
granularity of the Python `timedelta` arithmetic used here. -/

/-- Start of the pre-spike window: `spike_time - timedelta(minutes=10)`. -/
def preSpikeStart (t : Int) : Int := t - 600

/-- End of the pre-spike window: `spike_time - timedelta(seconds=1)`. -/
def preSpikeEnd (t : Int) : Int := t - 1

/-- Start of the spike window: `spike_time` itself. -/
def spikeWinStart (t : Int) : Int := t

/-- End of the spike window:
`spike_time + timedelta(minutes=1) - timedelta(seconds=1)`. -/
def spikeWinEnd (t : Int) : Int := t + 60 - 1

/-- Start of the post-spike window: `spike_time + timedelta(minutes=1)`. -/
def postSpikeStart (t : Int) : Int := t + 60

/-- End of the post-spike window: `spike_time + timedelta(minutes=11)`. -/
def postSpikeEnd (t : Int) : Int := t + 660

/-- The pre-spike window as a closed interval pair. -/
def preWindow (t : Int) : Int × Int := (preSpikeStart t, preSpikeEnd t)

/-- The spike-minute window as a closed interval pair. -/
def spikeWindow (t : Int) : Int × Int := (spikeWinStart t, spikeWinEnd t)

/-- The post-spike window as a closed interval pair. -/
def postWindow (t : Int) : Int × Int := (postSpikeStart t, postSpikeEnd t)

/-- Membership in a closed interval of whole seconds. -/
def inWindow (lo hi x : Int) : Prop := lo ≤ x ∧ x ≤ hi

instance (lo hi x : Int) : Decidable (inWindow lo hi x) := by
  unfold inWindow; infer_instance

/-! ## Services, window counts, and the counts dictionary

`get_all_gunicorn_sites` yields a list of `{'site_name', 'access_log_path'}`
dicts; `get_log_counts_for_sites` (full2.py lines 212–269) builds a
`site_name`-keyed dict of `{'before', 'spike', 'after'}` counts and fills
it with three passes over the site list, one remote count per
(site, window) cell.  The remote count operation is abstracted as an
oracle `Site → Int × Int → Option Nat`; `none` models any failure of the
cell's operation (transport error, missing file, non-integer stdout),
which `count_logs` converts to a count of `0` in its `except` handler
(lines 245–247). -/

/-- A discovered Gunicorn site: one entry of `get_all_gunicorn_sites`'s
result (full2.py lines 206–209). -/
structure Site where
  site_name : String
  access_log_path : String
deriving DecidableEq, Repr

/-- The three window counts kept per site
(`{'before': X, 'spike': Y, 'after': Z}`). -/
structure Counts where
  before : Nat
  spike : Nat
  after : Nat
deriving DecidableEq, Repr

/-- The remote count operation for one (site, window) cell: `none`
models a failed operation, `some n` a successful `wc -l` read of `n`. -/
def CountOracle : Type := Site → Int × Int → Option Nat

/-- Python dict insertion preserving insertion order: overwrite the
value at an existing key in place, otherwise append the new binding. -/
def dictInsert : List (String × Counts) → String → Counts → List (String × Counts)
  | [], k, v => [(k, v)]
  | (k', v') :: rest, k, v =>
      if k' = k then (k', v) :: rest else (k', v') :: dictInsert rest k v

/-- Python dict item assignment `d[k] = f d[k]` on an existing key:
replace the value bound to `k` in place (keys are always present when
the engine assigns, so the missing-key case never arises). -/
def dictSet : List (String × Counts) → String → (Counts → Counts) → List (String × Counts)
  | [], _, _ => []
  | (k', v') :: rest, k, f =>
      if k' = k then (k', f v') :: rest else (k', v') :: dictSet rest k f

/-- Python dict lookup `d[k]` as an option. -/
def pyLookup : List (String × Counts) → String → Option Counts
  | [], _ => none
  | (k', v') :: rest, k => if k' = k then some v' else pyLookup rest k

/-- The dict comprehension
`{site['site_name']: {'before': 0, 'spike': 0, 'after': 0} for site in sites}`
(full2.py line 226), iterating the site list with an explicit
accumulator. -/
def initCounts : List (String × Counts) → List Site → List (String × Counts)
  | d, [] => d
  | d, s :: rest => initCounts (dictInsert d s.site_name ⟨0, 0, 0⟩) rest

/-- One of the three `for site in sites:` counting passes (full2.py
lines 258–267): for each site, run the cell's remote count (window `w`)
and store `(oracle site w).getD 0` — the `0` being `count_logs`'s
degraded result on failure — into the site's entry via `set`. -/
def countPass (o : CountOracle) (w : Int × Int) (set : Counts → Nat → Counts) :
    List (String × Counts) → List Site → List (String × Counts)
  | d, [] => d
  | d, s :: rest =>
      countPass o w set (dictSet d s.site_name (fun c => set c ((o s w).getD 0))) rest

/-- `get_log_counts_for_sites` (full2.py lines 212–269): initialise the
counts dict, then fill the `before`, `spike` and `after` cells with one
pass each over the discovered sites. -/
def getLogCountsForSites (o : CountOracle) (sites : List Site) (t : Int) :
    List (String × Counts) :=
  let d0 := initCounts [] sites
  let d1 := countPass o (preWindow t) (fun c n => { c with before := n }) d0 sites
  let d2 := countPass o (spikeWindow t) (fun c n => { c with spike := n }) d1 sites
  countPass o (postWindow t) (fun c n => { c with after := n }) d2 sites

/-! ## Spike detection and spike attribution -/

/-- A CloudWatch CPU datapoint `{"Timestamp": ..., "CPU": ...}`
(timestamps in whole seconds, CPU percentage as a rational). -/
structure CpuPoint where
  ts : Int
  cpu : Rat
deriving DecidableEq, Repr

/-- The scan performed by Python's `max(cpu_per_minute, key=lambda x: x["CPU"])`
(full2.py line 337): keep the current maximum, replacing it only when a
later point's value is strictly greater — so the first maximal point
wins. -/
def runningMax : CpuPoint → List CpuPoint → CpuPoint
  | acc, [] => acc
  | acc, p :: rest => runningMax (if p.cpu > acc.cpu then p else acc) rest

/-- The Spike Detector: `max(...)` on a non-empty sequence, `none` on an
empty one (in the source the empty case is the `if not cpu_per_minute`
branch which never reaches the `max` call). -/
def detectSpike : List CpuPoint → Option CpuPoint
  | [] => none
  | p :: rest => some (runningMax p rest)

/-- Absolute difference of two counts, `abs(a - b)` on Python ints. -/
def absDiff (a b : Nat) : Nat := max (a - b) (b - a)

/-- The per-site spike magnitude (full2.py lines 381–387):
`max(|spike − before|, |after − spike|, |after − before|)`. -/
def siteMagnitude (c : Counts) : Nat :=
  max (absDiff c.spike c.before) (max (absDiff c.after c.spike) (absDiff c.after c.before))

/-- The attribution loop state update (full2.py lines 374–391): starting
from `Spike_site = None, max_spike = 0`, replace the pair whenever a
site's magnitude is strictly greater than the current maximum. -/
def attrAux : Option String × Nat → List (String × Counts) → Option String × Nat
  | acc, [] => acc
  | acc, sc :: rest =>
      attrAux (if siteMagnitude sc.2 > acc.2 then (some sc.1, siteMagnitude sc.2) else acc) rest

/-- The Spike Attributor: the attribution loop run from
`(None, 0)` over the counts dict's items in insertion order. -/
def attributeSpike (counts : List (String × Counts)) : Option String × Nat :=
  attrAux (none, 0) counts

/-! ## The monitoring-loop cycle

The body of the `while True:` loop (full2.py lines 314–445) is embedded
as a pure function of a cycle environment: the external collaborators'
responses (instance status, CPU series, discovered sites, remote count
and fetch operations) are inputs, and the function returns the assembled
report together with the list of pipeline-stage invocations the code
performed, in order.  Number/timestamp rendering inside the report
(`{dp['Timestamp']}`, `{dp['CPU']:.2f}`) is abstracted as two formatting
parameters, which no claim depends on. -/

/-- A recorded invocation of a downstream pipeline stage. -/
inductive Call where
  | discovery
  | counting
  | attribution
  | fetchWindow (path : String) (wstart wend : Int)
deriving DecidableEq, Repr

/-- The external inputs of one monitoring cycle. -/
structure CycleEnv where
  state : String
  systemStatus : String
  instanceStatus : String
  cpu : List CpuPoint
  sites : List Site
  countOracle : CountOracle
  fetchOracle : String → Int → Int → Except String String
  fmtTs : Int → String
  fmtQ : Rat → String

/-- The result of one monitoring cycle: the report handed to the
reasoning agent, and the pipeline stages invoked. -/
structure CycleResult where
  report : String
  calls : List Call
deriving Repr

/-- Python truthiness of an optional string (`if Spike_site and ...`):
`None` and the empty string are falsy. -/
def pyTruthy : Option String → Bool
  | none => false
  | some s => !(s == "")

/-- `fetch_logs_window` (full2.py lines 272–308): on success, the
stripped remote stdout, or the "No logs found" placeholder when it is
empty; on an exception, the error text. -/
def fetchLogsWindow (o : String → Int → Int → Except String String)
    (path : String) (a b : Int) : String :=
  match o path a b with
  | Except.ok out => if out.trim = "" then "No logs found in the window." else out.trim
  | Except.error e => "Error fetching logs: " ++ e

/-- One per-site line of `report_metrics` (full2.py lines 399–402). -/
def metricLine (sc : String × Counts) : String :=
  "  - Website: " ++ (sc.1 ++ (", Before Spike: " ++ (toString sc.2.before ++
    (", At Spike: " ++ (toString sc.2.spike ++ (", After Spike: " ++
    (toString sc.2.after ++ (", Spike Magnitude: " ++ toString (siteMagnitude sc.2)))))))))

/-- The counts dict computed by the cycle for a detected spike
(full2.py line 359). -/
def cycleCounts (env : CycleEnv) (spike : CpuPoint) : List (String × Counts) :=
  getLogCountsForSites env.countOracle env.sites spike.ts

/-- The cycle's attributed site, `Spike_site` (full2.py lines 374–391). -/
def cycleSpikeSite (env : CycleEnv) (spike : CpuPoint) : Option String :=
  (attributeSpike (cycleCounts env spike)).1

/-- The cycle's maximal magnitude, `max_spike`. -/
def cycleMaxSpike (env : CycleEnv) (spike : CpuPoint) : Nat :=
  (attributeSpike (cycleCounts env spike)).2

/-- `Spike_log_path` (full2.py lines 405–408): the first discovered site
whose name equals the attributed site's name, if any. -/
def cycleLogPath (env : CycleEnv) (spike : CpuPoint) : Option String :=
  match cycleSpikeSite env spike with
  | none => none
  | some nm => (env.sites.find? (fun s => s.site_name == nm)).map Site.access_log_path

/-- The branch condition `if Spike_site and Spike_log_path:`
(full2.py line 424). -/
def cycleDoFetch (env : CycleEnv) (spike : CpuPoint) : Bool :=
  pyTruthy (cycleSpikeSite env spike) && pyTruthy (cycleLogPath env spike)

/-- The report built before the attribution branch (full2.py
lines 412–422): status header, per-minute CPU lines, the spike headline
and the per-site count lines. -/
def mkBaseReport (env : CycleEnv) (spike : CpuPoint) : String :=
  "\nEC2 Status: " ++ (env.state ++ ("\nSystem Status: " ++ (env.systemStatus ++
    ("\nInstance Status: " ++ (env.instanceStatus ++
    ("\nCPU Utilization Per Minute (Last Hour):\n" ++
    (String.join (env.cpu.map (fun dp => env.fmtTs dp.ts ++ (" - " ++ (env.fmtQ dp.cpu ++ "% CPU\n")))) ++
    ("\n🚨 Highest CPU spike detected at " ++ (env.fmtTs spike.ts ++ (" with " ++ (env.fmtQ spike.cpu ++
    ("% utilization.\n" ++ ("\n📊 Access log counts analysis for the spike window:\n" ++
    String.intercalate "\n" ((cycleCounts env spike).map metricLine))))))))))))))

/-- The spike-identified report line appended at full2.py line 428. -/
def spikeIdLine (nm : String) (m : Nat) : String :=
  "\n🕵️‍♂️ Website with the most significant spike in requests: " ++
    (nm ++ (" with an increase of " ++ (toString m ++ " requests.\n")))

/-- The cycle body after a spike was detected (full2.py lines 341–436):
discovery, then either the empty-discovery degraded path, or counting,
attribution and conditionally the detailed fetch over the loop's
analysis window `[spike_time − 10min, spike_time + 10min]`
(`pre_spike_start_window`/`post_spike_end_window`, lines 344–347,
used by the fetch call at line 431). -/
def mainCycle (env : CycleEnv) (spike : CpuPoint) : CycleResult :=
  if env.sites = [] then
    { report := "", calls := [Call.discovery] }
  else
    let preStartW := spike.ts - 600
    let postEndW := spike.ts + 600
    if cycleDoFetch env spike then
      let nm := (cycleSpikeSite env spike).getD ""
      let path := (cycleLogPath env spike).getD ""
      let logs := fetchLogsWindow env.fetchOracle path preStartW postEndW
      { report := mkBaseReport env spike ++ (spikeIdLine nm (cycleMaxSpike env spike) ++
          ("\n📜 Detailed logs for " ++ (nm ++ (" during the spike:\n" ++ (logs ++ "\n"))))),
        calls := [Call.discovery, Call.counting, Call.attribution,
                  Call.fetchWindow path preStartW postEndW] }
    else
      { report := mkBaseReport env spike ++ "\nCould not identify a clear Spike website from log data.\n",
        calls := [Call.discovery, Call.counting, Call.attribution] }

/-- One full monitoring cycle (full2.py lines 314–445): the
empty-metric branch (lines 329–331) sets `report = ""` and performs no
further stage; otherwise the spike is detected and the main body runs. -/
def runCycle (env : CycleEnv) : CycleResult :=
  match env.cpu with
  | [] => { report := "", calls := [] }
  | p :: rest => mainCycle env (runningMax p rest)

/-! ## Claim C5: the SpikeWindow invariant -/

/-- C5: for every spike time, the windows of
`get_log_counts_for_sites` satisfy `pre_start = spike_time − 10min`,
`spike_end = spike_start + 1min − 1s`, `post_end = spike_time + 11min`;
the three closed intervals are contiguous (each window's end is one
second before the next window's start) and pairwise non-overlapping at
one-second granularity, and an instant exactly at `spike_start` lies in
the spike window and not in the before window. -/
theorem spike_window_invariant (t : Int) :
    preSpikeStart t = t - 600 ∧
    spikeWinEnd t = spikeWinStart t + 60 - 1 ∧
    postSpikeEnd t = t + 660 ∧
    preSpikeEnd t + 1 = spikeWinStart t ∧
    spikeWinEnd t + 1 = postSpikeStart t ∧
    (∀ x : Int, ¬(inWindow (preSpikeStart t) (preSpikeEnd t) x ∧
        inWindow (spikeWinStart t) (spikeWinEnd t) x)) ∧
    (∀ x : Int, ¬(inWindow (spikeWinStart t) (spikeWinEnd t) x ∧
        inWindow (postSpikeStart t) (postSpikeEnd t) x)) ∧
    (∀ x : Int, ¬(inWindow (preSpikeStart t) (preSpikeEnd t) x ∧
        inWindow (postSpikeStart t) (postSpikeEnd t) x)) ∧
    inWindow (spikeWinStart t) (spikeWinEnd t) (spikeWinStart t) ∧
    ¬ inWindow (preSpikeStart t) (preSpikeEnd t) (spikeWinStart t) := by
  unfold inWindow preSpikeStart preSpikeEnd spikeWinStart spikeWinEnd postSpikeStart postSpikeEnd
  refine ⟨by omega, by omega, by omega, by omega, by omega,
    fun x => by omega, fun x => by omega, fun x => by omega, by omega, by omega⟩

/-- Witness for C5: the boundary facts instantiated at spike time 0. -/
theorem spike_window_invariant_witness :
    inWindow (spikeWinStart 0) (spikeWinEnd 0) (spikeWinStart 0) ∧
    ¬ inWindow (preSpikeStart 0) (preSpikeEnd 0) (spikeWinStart 0) := by
  have h := spike_window_invariant 0
  exact ⟨h.2.2.2.2.2.2.2.2.1, h.2.2.2.2.2.2.2.2.2⟩

/-! ## Claim C3: the window filters compare text, not parsed time -/

/-- C3 (code bug): the log line timestamped `30/Sep/2025:23:59:00` lies,
on parsed time values, inside the closed window
`[30/Sep/2025:23:55:00, 01/Oct/2025:00:05:00]`, yet both the
`count_logs` filter and the `fetch_logs_window` filter drop it, because
awk compares the timestamp *strings* lexically and
`"30/Sep/..." <= "01/Oct/..."` is false. -/
theorem timestamp_filter_lexical_bug :
    inParsedWindow ⟨2025, 9, 30, 23, 55, 0⟩ ⟨2025, 10, 1, 0, 5, 0⟩ ⟨2025, 9, 30, 23, 59, 0⟩ ∧
    countFilterKeeps ⟨2025, 9, 30, 23, 55, 0⟩ ⟨2025, 10, 1, 0, 5, 0⟩ ⟨2025, 9, 30, 23, 59, 0⟩ = false ∧
    fetchFilterKeeps ⟨2025, 9, 30, 23, 55, 0⟩ ⟨2025, 10, 1, 0, 5, 0⟩ ⟨2025, 9, 30, 23, 59, 0⟩ = false := by
  decide

/-! ## Claim C2: the Spike Detector returns the first maximum -/

/-- Invariant of the `max(..., key=...)` scan: the result bounds every
element of the scanned list (accumulator included), and is the first
element of that list whose value reaches the result's value. -/
theorem runningMax_spec (l : List CpuPoint) (x : CpuPoint) :
    (∀ p ∈ x :: l, p.cpu ≤ (runningMax x l).cpu) ∧
    (x :: l).find? (fun p => decide ((runningMax x l).cpu ≤ p.cpu)) = some (runningMax x l) := by
  induction l generalizing x with
  | nil =>
    constructor
    · intro p hp
      simp only [List.mem_singleton] at hp
      subst hp
      exact le_refl _
    · rw [List.find?_cons_of_pos]
      · simp [runningMax]
      · simp [runningMax]
  | cons y ys ih =>
    by_cases h : y.cpu > x.cpu
    · have hre : runningMax x (y :: ys) = runningMax y ys := by
        simp [runningMax, h]
      have hr := ih y
      have hyr : y.cpu ≤ (runningMax y ys).cpu := hr.1 y (List.mem_cons_self y ys)
      rw [hre]
      constructor
      · intro p hp
        rcases List.mem_cons.mp hp with rfl | hp'
        · exact le_trans (le_of_lt h) hyr
        · exact hr.1 p hp'
      · rw [List.find?_cons_of_neg]
        · exact hr.2
        · simp only [decide_eq_true_eq, not_le]
          exact lt_of_lt_of_le h hyr
    · have hre : runningMax x (y :: ys) = runningMax x ys := by
        simp [runningMax, h]
      have hr := ih x
      have hyx : y.cpu ≤ x.cpu := not_lt.mp h
      have hxr : x.cpu ≤ (runningMax x ys).cpu := hr.1 x (List.mem_cons_self x ys)
      rw [hre]
      constructor
      · intro p hp
        rcases List.mem_cons.mp hp with rfl | hp'
        · exact hxr
        · rcases List.mem_cons.mp hp' with rfl | hp''
          · exact le_trans hyx hxr
          · exact hr.1 p (List.mem_cons_of_mem x hp'')
      · by_cases hx : (runningMax x ys).cpu ≤ x.cpu
        · have hfx : (x :: ys).find? (fun p => decide ((runningMax x ys).cpu ≤ p.cpu)) = some x := by
            rw [List.find?_cons_of_pos]
            simpa using hx
          have hxeq : x = runningMax x ys := by
            have := hr.2
            rw [hfx] at this
            exact Option.some.inj this
          rw [List.find?_cons_of_pos]
          · rw [← hxeq]
          · simpa using hx
        · have hfr : ys.find? (fun p => decide ((runningMax x ys).cpu ≤ p.cpu)) =
              some (runningMax x ys) := by
            have := hr.2
            rwa [List.find?_cons_of_neg] at this
            simpa using hx
          rw [List.find?_cons_of_neg, List.find?_cons_of_neg]
          · exact hfr
          · simp only [decide_eq_true_eq, not_le]
            exact lt_of_le_of_lt hyx (not_le.mp hx)
          · simpa using hx

/-- C2: for every non-empty metric sequence, the Spike Detector returns
a point whose value bounds every point's value, and that point is the
first point of the sequence whose value reaches the maximum (ties go to
the earliest point). -/
theorem spike_detector_first_max (l : List CpuPoint) (h : l ≠ []) :
    ∃ r, detectSpike l = some r ∧ (∀ p ∈ l, p.cpu ≤ r.cpu) ∧
      l.find? (fun p => decide (r.cpu ≤ p.cpu)) = some r := by
  match l, h with
  | p :: rest, _ =>
    exact ⟨runningMax p rest, rfl, (runningMax_spec rest p).1, (runningMax_spec rest p).2⟩

/-- A concrete metric series with a tied maximum. -/
def tieSeries : List CpuPoint := [⟨0, 5⟩, ⟨60, 7⟩, ⟨120, 7⟩]

/-- Witness for C2 on a series with two maximal points: the first one
is returned. -/
theorem spike_detector_first_max_witness :
    ∃ r, detectSpike tieSeries = some r ∧ (∀ p ∈ tieSeries, p.cpu ≤ r.cpu) ∧
      tieSeries.find? (fun p => decide (r.cpu ≤ p.cpu)) = some r :=
  spike_detector_first_max tieSeries (by decide)

/-! ## Claims C1 and C6: the Spike Attributor -/

/-- Invariant of the attribution loop (full2.py lines 374–391), run from
an arbitrary accumulator: the final maximum bounds the start value and
every magnitude in the list; if the maximum did not increase the
accumulator is returned unchanged; and if it did, the selected entry is
the first list entry whose magnitude reaches the final maximum. -/
theorem attrAux_spec (l : List (String × Counts)) (o : Option String) (b : Nat) :
    b ≤ (attrAux (o, b) l).2 ∧
    (∀ sc ∈ l, siteMagnitude sc.2 ≤ (attrAux (o, b) l).2) ∧
    (¬ b < (attrAux (o, b) l).2 → attrAux (o, b) l = (o, b)) ∧
    (b < (attrAux (o, b) l).2 →
      ∃ p, l.find? (fun sc => decide ((attrAux (o, b) l).2 ≤ siteMagnitude sc.2)) = some p ∧
        (attrAux (o, b) l).1 = some p.1 ∧ siteMagnitude p.2 = (attrAux (o, b) l).2) := by
  induction l generalizing o b with
  | nil =>
    refine ⟨le_refl b, fun sc h => absurd h (List.not_mem_nil sc), fun _ => rfl, fun h => ?_⟩
    exact absurd h (lt_irrefl b)
  | cons sc rest ih =>
    by_cases h : siteMagnitude sc.2 > b
    · have hre : attrAux (o, b) (sc :: rest) = attrAux (some sc.1, siteMagnitude sc.2) rest := by
        simp [attrAux, h]
      have hr := ih (some sc.1) (siteMagnitude sc.2)
      rw [hre]
      refine ⟨le_trans (le_of_lt h) hr.1, ?_, ?_, ?_⟩
      · intro sc' h'
        rcases List.mem_cons.mp h' with rfl | h''
        · exact hr.1
        · exact hr.2.1 sc' h''
      · intro hc
        exact absurd (lt_of_lt_of_le h hr.1) hc
      · intro _
        by_cases h2 : siteMagnitude sc.2 < (attrAux (some sc.1, siteMagnitude sc.2) rest).2
        · obtain ⟨p, hfind, h1, hmg⟩ := hr.2.2.2 h2
          refine ⟨p, ?_, h1, hmg⟩
          rw [List.find?_cons_of_neg]
          · exact hfind
          · simp only [decide_eq_true_eq, not_le]
            exact h2
        · have heq := hr.2.2.1 h2
          refine ⟨sc, ?_, ?_, ?_⟩
          · rw [List.find?_cons_of_pos]
            simp [heq]
          · rw [heq]
          · rw [heq]
    · have hre : attrAux (o, b) (sc :: rest) = attrAux (o, b) rest := by
        simp [attrAux, h]
      have hr := ih o b
      have hscb : siteMagnitude sc.2 ≤ b := not_lt.mp h
      rw [hre]
      refine ⟨hr.1, ?_, hr.2.2.1, ?_⟩
      · intro sc' h'
        rcases List.mem_cons.mp h' with rfl | h''
        · exact le_trans hscb hr.1
        · exact hr.2.1 sc' h''
      · intro hb
        obtain ⟨p, hfind, h1, hmg⟩ := hr.2.2.2 hb
        refine ⟨p, ?_, h1, hmg⟩
        rw [List.find?_cons_of_neg]
        · exact hfind
        · simp only [decide_eq_true_eq, not_le]
          exact lt_of_le_of_lt hscb hb

/-- C1: the attributor's magnitude for each service is the maximum of
the three pairwise absolute differences of its window counts; whenever
some service has a positive magnitude, the attributor returns the first
service (in dict iteration order) whose magnitude equals the overall
maximum, with that maximum as its magnitude; and on the spec's concrete
example it attributes `B` with magnitude `45`. -/
theorem spike_attributor_correct :
    (∀ c : Counts, siteMagnitude c =
        max (absDiff c.spike c.before) (max (absDiff c.after c.spike) (absDiff c.after c.before))) ∧
    (∀ counts : List (String × Counts), (∃ sc ∈ counts, 0 < siteMagnitude sc.2) →
      ∃ p, attributeSpike counts = (some p.1, siteMagnitude p.2) ∧
        (∀ sc ∈ counts, siteMagnitude sc.2 ≤ siteMagnitude p.2) ∧
        counts.find? (fun sc => decide (siteMagnitude p.2 ≤ siteMagnitude sc.2)) = some p) ∧
    attributeSpike [("A", ⟨10, 10, 10⟩), ("B", ⟨5, 50, 6⟩)] = (some "B", 45) := by
  refine ⟨fun c => rfl, ?_, by decide⟩
  intro counts hex
  obtain ⟨sc0, hmem, hpos⟩ := hex
  have hs := attrAux_spec counts none 0
  have hpos2 : 0 < (attrAux (none, 0) counts).2 := lt_of_lt_of_le hpos (hs.2.1 sc0 hmem)
  obtain ⟨p, hfind, h1, h2⟩ := hs.2.2.2 hpos2
  refine ⟨p, ?_, ?_, ?_⟩
  · show attrAux (none, 0) counts = (some p.1, siteMagnitude p.2)
    exact Prod.ext h1 h2.symm
  · intro sc h
    exact le_of_le_of_eq (hs.2.1 sc h) h2.symm
  · show counts.find? (fun sc => decide (siteMagnitude p.2 ≤ siteMagnitude sc.2)) = some p
    rw [h2]
    exact hfind

/-- Witness for C1 on the spec's example counts. -/
theorem spike_attributor_correct_witness :
    ∃ p, attributeSpike [("A", ⟨10, 10, 10⟩), ("B", ⟨5, 50, 6⟩)] = (some p.1, siteMagnitude p.2) ∧
      (∀ sc ∈ [("A", (⟨10, 10, 10⟩ : Counts)), ("B", ⟨5, 50, 6⟩)],
        siteMagnitude sc.2 ≤ siteMagnitude p.2) ∧
      List.find? (fun sc => decide (siteMagnitude p.2 ≤ siteMagnitude sc.2))
        [("A", ⟨10, 10, 10⟩), ("B", ⟨5, 50, 6⟩)] = some p :=
  spike_attributor_correct.2.1 _ ⟨("B", ⟨5, 50, 6⟩), by decide, by decide⟩

/-- The attribution loop leaves the accumulator untouched when every
magnitude in the list is zero. -/
theorem attrAux_all_zero (l : List (String × Counts)) (o : Option String)
    (h : ∀ sc ∈ l, siteMagnitude sc.2 = 0) : attrAux (o, 0) l = (o, 0) := by
  induction l generalizing o with
  | nil => rfl
  | cons sc rest ih =>
    have h0 : siteMagnitude sc.2 = 0 := h sc (List.mem_cons_self sc rest)
    have hre : attrAux (o, 0) (sc :: rest) = attrAux (o, 0) rest := by
      simp [attrAux, h0]
    rw [hre]
    exact ih o (fun x hx => h x (List.mem_cons_of_mem sc hx))

/-! ## Lemmas about the counts dictionary -/

/-- Looking up the inserted key finds the inserted value. -/
theorem pyLookup_dictInsert_self (d : List (String × Counts)) (k : String) (v : Counts) :
    pyLookup (dictInsert d k v) k = some v := by
  induction d with
  | nil => simp [dictInsert, pyLookup]
  | cons kv rest ih =>
    obtain ⟨a, b⟩ := kv
    by_cases h : a = k
    · simp [dictInsert, pyLookup, h]
    · simp [dictInsert, pyLookup, h, ih]

/-- Insertion at one key leaves lookups of other keys unchanged. -/
theorem pyLookup_dictInsert_other (d : List (String × Counts)) (k k' : String) (v : Counts)
    (h : k ≠ k') : pyLookup (dictInsert d k v) k' = pyLookup d k' := by
  induction d with
  | nil => simp [dictInsert, pyLookup, h]
  | cons kv rest ih =>
    obtain ⟨a, b⟩ := kv
    by_cases ha : a = k
    · subst ha
      simp [dictInsert, pyLookup, h]
    · simp [dictInsert, pyLookup, ha, ih]

/-- Updating a key rewrites its value through the update function. -/
theorem pyLookup_dictSet_self (d : List (String × Counts)) (k : String) (f : Counts → Counts) :
    pyLookup (dictSet d k f) k = (pyLookup d k).map f := by
  induction d with
  | nil => simp [dictSet, pyLookup]
  | cons kv rest ih =>
    obtain ⟨a, b⟩ := kv
    by_cases h : a = k
    · simp [dictSet, pyLookup, h]
    · simp [dictSet, pyLookup, h, ih]

/-- Updating one key leaves lookups of other keys unchanged. -/
theorem pyLookup_dictSet_other (d : List (String × Counts)) (k k' : String) (f : Counts → Counts)
    (h : k ≠ k') : pyLookup (dictSet d k f) k' = pyLookup d k' := by
  induction d with
  | nil => simp [dictSet, pyLookup]
  | cons kv rest ih =>
    obtain ⟨a, b⟩ := kv
    by_cases ha : a = k
    · subst ha
      simp [dictSet, pyLookup, h]
    · simp [dictSet, pyLookup, ha, ih]

/-- The initialisation loop does not touch keys outside the site list. -/
theorem initCounts_lookup_notmem (sites : List Site) (d : List (String × Counts)) (k : String)
    (h : k ∉ sites.map Site.site_name) :
    pyLookup (initCounts d sites) k = pyLookup d k := by
  induction sites generalizing d with
  | nil => rfl
  | cons s rest ih =>
    simp only [List.map_cons, List.mem_cons, not_or] at h
    simp only [initCounts]
    rw [ih _ (fun hx => h.2 hx), pyLookup_dictInsert_other _ _ _ _ (fun hx => h.1 hx.symm)]

/-- After initialisation, every discovered site's entry is the zero
counts record (site names assumed pairwise distinct). -/
theorem initCounts_lookup_mem (sites : List Site) (d : List (String × Counts)) (s : Site)
    (hnd : (sites.map Site.site_name).Nodup) (hs : s ∈ sites) :
    pyLookup (initCounts d sites) s.site_name = some ⟨0, 0, 0⟩ := by
  induction sites generalizing d with
  | nil => cases hs
  | cons a rest ih =>
    simp only [List.map_cons, List.nodup_cons] at hnd
    simp only [initCounts]
    rcases List.mem_cons.mp hs with rfl | hmem
    · rw [initCounts_lookup_notmem rest _ _ hnd.1, pyLookup_dictInsert_self]
    · exact ih _ hnd.2 hmem

/-- A counting pass does not touch keys outside the site list. -/
theorem countPass_lookup_notmem (o : CountOracle) (w : Int × Int) (set : Counts → Nat → Counts)
    (sites : List Site) (d : List (String × Counts)) (k : String)
    (h : k ∉ sites.map Site.site_name) :
    pyLookup (countPass o w set d sites) k = pyLookup d k := by
  induction sites generalizing d with
  | nil => rfl
  | cons s rest ih =>
    simp only [List.map_cons, List.mem_cons, not_or] at h
    simp only [countPass]
    rw [ih _ (fun hx => h.2 hx), pyLookup_dictSet_other _ _ _ _ (fun hx => h.1 hx.symm)]

/-- A counting pass writes exactly the cell of each site's own remote
count into that site's entry (site names assumed pairwise distinct). -/
theorem countPass_lookup_mem (o : CountOracle) (w : Int × Int) (set : Counts → Nat → Counts)
    (sites : List Site) (d : List (String × Counts)) (s : Site) (c : Counts)
    (hnd : (sites.map Site.site_name).Nodup) (hs : s ∈ sites)
    (hc : pyLookup d s.site_name = some c) :
    pyLookup (countPass o w set d sites) s.site_name = some (set c ((o s w).getD 0)) := by
  induction sites generalizing d with
  | nil => cases hs
  | cons a rest ih =>
    simp only [List.map_cons, List.nodup_cons] at hnd
    simp only [countPass]
    rcases List.mem_cons.mp hs with rfl | hmem
    · rw [countPass_lookup_notmem o w set rest _ _ hnd.1, pyLookup_dictSet_self, hc]
      rfl
    · have hne : a.site_name ≠ s.site_name := by
        intro he
        exact hnd.1 (he ▸ List.mem_map_of_mem Site.site_name hmem)
      refine ih _ hnd.2 hmem ?_
      rw [pyLookup_dictSet_other _ _ _ _ hne, hc]

/-- Cell characterization of `get_log_counts_for_sites`: with pairwise
distinct site names, each discovered site's final entry holds exactly
its own three remote counts, each degraded to `0` when its own remote
operation failed — cells depend only on their own (site, window)
operation. -/
theorem counts_cell_characterization (o : CountOracle) (sites : List Site) (t : Int) (s : Site)
    (hnd : (sites.map Site.site_name).Nodup) (hs : s ∈ sites) :
    pyLookup (getLogCountsForSites o sites t) s.site_name =
      some ⟨(o s (preWindow t)).getD 0, (o s (spikeWindow t)).getD 0,
        (o s (postWindow t)).getD 0⟩ := by
  simp only [getLogCountsForSites]
  have h0 := initCounts_lookup_mem sites [] s hnd hs
  have h1 := countPass_lookup_mem o (preWindow t) (fun c n => { c with before := n })
    sites _ s _ hnd hs h0
  have h2 := countPass_lookup_mem o (spikeWindow t) (fun c n => { c with spike := n })
    sites _ s _ hnd hs h1
  have h3 := countPass_lookup_mem o (postWindow t) (fun c n => { c with after := n })
    sites _ s _ hnd hs h2
  exact h3

/-- Updating values never changes the dict's key sequence. -/
theorem keys_dictSet (d : List (String × Counts)) (k : String) (f : Counts → Counts) :
    (dictSet d k f).map Prod.fst = d.map Prod.fst := by
  induction d with
  | nil => rfl
  | cons kv rest ih =>
    obtain ⟨a, b⟩ := kv
    by_cases h : a = k <;> simp [dictSet, h, ih]

/-- A counting pass never changes the dict's key sequence. -/
theorem keys_countPass (o : CountOracle) (w : Int × Int) (set : Counts → Nat → Counts)
    (sites : List Site) (d : List (String × Counts)) :
    (countPass o w set d sites).map Prod.fst = d.map Prod.fst := by
  induction sites generalizing d with
  | nil => rfl
  | cons s rest ih =>
    simp only [countPass]
    rw [ih, keys_dictSet]

/-- Insertion introduces no key other than the inserted one. -/
theorem mem_keys_dictInsert (d : List (String × Counts)) (k k' : String) (v : Counts)
    (h : k' ∈ (dictInsert d k v).map Prod.fst) : k' ∈ d.map Prod.fst ∨ k' = k := by
  induction d with
  | nil =>
    simp [dictInsert] at h
    exact Or.inr h
  | cons kv rest ih =>
    obtain ⟨a, b⟩ := kv
    by_cases ha : a = k
    · simp only [dictInsert, if_pos ha, List.map_cons, List.mem_cons] at h
      exact Or.inl (by simpa using h)
    · simp only [dictInsert, if_neg ha, List.map_cons, List.mem_cons] at h
      rcases h with rfl | h'
      · exact Or.inl (List.mem_cons_self _ _)
      · rcases ih h' with h'' | rfl
        · exact Or.inl (List.mem_cons_of_mem _ h'')
        · exact Or.inr rfl

/-- Every key of the initialised dict comes from the accumulator or is
some discovered site's name. -/
theorem keys_initCounts_subset (sites : List Site) (d : List (String × Counts)) (k : String)
    (h : k ∈ (initCounts d sites).map Prod.fst) :
    k ∈ d.map Prod.fst ∨ k ∈ sites.map Site.site_name := by
  induction sites generalizing d with
  | nil => exact Or.inl h
  | cons s rest ih =>
    simp only [initCounts] at h
    rcases ih _ h with h' | h'
    · rcases mem_keys_dictInsert d s.site_name k ⟨0, 0, 0⟩ h' with h'' | rfl
      · exact Or.inl h''
      · exact Or.inr (List.mem_cons_self _ _)
    · exact Or.inr (List.mem_cons_of_mem _ h')

/-- Every key of the counts dict is a discovered site's name. -/
theorem keys_getLogCounts_subset (o : CountOracle) (sites : List Site) (t : Int) (k : String)
    (h : k ∈ (getLogCountsForSites o sites t).map Prod.fst) :
    k ∈ sites.map Site.site_name := by
  simp only [getLogCountsForSites] at h
  rw [keys_countPass, keys_countPass, keys_countPass] at h
  rcases keys_initCounts_subset sites [] k h with h' | h'
  · cases h'
  · exact h'

/-- When some site of the list bears the wanted name, the `next(...)`
lookup over the site list succeeds. -/
theorem find_site_of_name_mem (sites : List Site) (nm : String)
    (h : nm ∈ sites.map Site.site_name) :
    ∃ s, sites.find? (fun s => s.site_name == nm) = some s := by
  induction sites with
  | nil => cases h
  | cons a rest ih =>
    by_cases ha : a.site_name = nm
    · refine ⟨a, ?_⟩
      rw [List.find?_cons_of_pos]
      simp [ha]
    · have h' : nm ∈ rest.map Site.site_name := by
        rcases List.mem_cons.mp h with h'' | h''
        · exact absurd h''.symm ha
        · exact h''
      obtain ⟨s, hs⟩ := ih h'
      refine ⟨s, ?_⟩
      rw [List.find?_cons_of_neg]
      · exact hs
      · simp [ha]

/-- An attributed site name is always one of the counts dict's keys. -/
theorem attributeSpike_some_mem (counts : List (String × Counts)) (nm : String) (m : Nat)
    (h : attributeSpike counts = (some nm, m)) : nm ∈ counts.map Prod.fst := by
  have hs := attrAux_spec counts none 0
  by_cases hp : 0 < (attrAux (none, 0) counts).2
  · obtain ⟨p, hfind, h1, h2⟩ := hs.2.2.2 hp
    have hfst : (attrAux (none, 0) counts).1 = some nm := by
      show (attributeSpike counts).1 = some nm
      rw [h]
    rw [hfst] at h1
    have : nm = p.1 := Option.some.inj h1
    rw [this]
    exact List.mem_map_of_mem Prod.fst (List.mem_of_find?_eq_some hfind)
  · have heq := hs.2.2.1 hp
    have : (none, 0) = ((some nm, m) : Option String × Nat) := by
      rw [← heq]
      exact h
    cases (Prod.mk.injEq _ _ _ _ ▸ this).1

/-- C10: whenever the attributor yields a site (`Spike_site` is not
`None`), the `next(...)` lookup of that site's access-log path over the
discovered sites succeeds — the attributed name is drawn from the counts
dict's keys, which all come from the discovered site names. -/
theorem attributed_site_path_lookup (o : CountOracle) (sites : List Site) (t : Int)
    (nm : String) (m : Nat)
    (h : attributeSpike (getLogCountsForSites o sites t) = (some nm, m)) :
    ∃ s, sites.find? (fun s => s.site_name == nm) = some s ∧
      (sites.find? (fun s => s.site_name == nm)).map Site.access_log_path =
        some s.access_log_path := by
  have h1 := attributeSpike_some_mem _ nm m h
  have h2 := keys_getLogCounts_subset o sites t nm h1
  obtain ⟨s, hs⟩ := find_site_of_name_mem sites nm h2
  refine ⟨s, hs, ?_⟩
  rw [hs]
  rfl

/-! ## Claim C8: per-cell failure isolation -/

/-- Which of a site's three window cells a remote count operation
belongs to (the before, spike-minute or after cell). -/
inductive WinKind where
  | pre
  | spike
  | post
deriving DecidableEq, Repr

/-- The interval of a window cell at spike time `t`. -/
def winOf : WinKind → Int → Int × Int
  | WinKind.pre, t => preWindow t
  | WinKind.spike, t => spikeWindow t
  | WinKind.post, t => postWindow t

/-- The component of a counts record held by a window cell. -/
def cellOf (c : Counts) : WinKind → Nat
  | WinKind.pre => c.before
  | WinKind.spike => c.spike
  | WinKind.post => c.after

/-- At one spike time the three windows are pairwise distinct
intervals, so distinct cells of a site are distinct remote operations. -/
theorem winOf_ne (k k' : WinKind) (t : Int) (h : k ≠ k') : winOf k t ≠ winOf k' t := by
  intro he
  have h1 := congrArg Prod.fst he
  cases k <;> cases k'
  all_goals first
  | exact h rfl
  | (simp only [winOf, preWindow, spikeWindow, postWindow, preSpikeStart, spikeWinStart,
      postSpikeStart] at h1
     omega)

/-- The counts record that `get_log_counts_for_sites` assembles for one
site: each cell is that cell's own remote count, degraded to `0` on
failure (the contents established by `counts_cell_characterization`). -/
def expectedCounts (o : CountOracle) (s : Site) (t : Int) : Counts :=
  ⟨(o s (preWindow t)).getD 0, (o s (spikeWindow t)).getD 0, (o s (postWindow t)).getD 0⟩

/-- Each cell of the assembled record is its own remote count degraded
to `0`. -/
theorem cellOf_expected (o : CountOracle) (s : Site) (t : Int) (k : WinKind) :
    cellOf (expectedCounts o s t) k = (o s (winOf k t)).getD 0 := by
  cases k <;> rfl

/-- The main-branch report always opens with the status header. -/
theorem mkBaseReport_head (env : CycleEnv) (spike : CpuPoint) :
    ∃ r, mkBaseReport env spike = "\nEC2 Status: " ++ r :=
  ⟨_, rfl⟩

/-- The empty-metric branch of the cycle (full2.py lines 329–331). -/
theorem runCycle_nil (env : CycleEnv) (h : env.cpu = []) :
    runCycle env = { report := "", calls := [] } := by
  simp only [runCycle, h]

/-- The spike branch of the cycle: the body runs on the detected spike. -/
theorem runCycle_cons (env : CycleEnv) (p : CpuPoint) (rest : List CpuPoint)
    (h : env.cpu = p :: rest) :
    runCycle env = mainCycle env (runningMax p rest) := by
  simp only [runCycle, h]

/-- Whatever the remote operations return, a cycle that found a spike
and discovered sites assembles a report opening with the status header. -/
theorem runCycle_report_head (env : CycleEnv) (h1 : env.cpu ≠ []) (h2 : env.sites ≠ []) :
    ∃ tail, (runCycle env).report = "\nEC2 Status: " ++ tail := by
  cases hcp : env.cpu with
  | nil => exact absurd hcp h1
  | cons p rest =>
    rw [runCycle_cons env p rest hcp]
    obtain ⟨r, hr⟩ := mkBaseReport_head env (runningMax p rest)
    by_cases hb : cycleDoFetch env (runningMax p rest) = true
    · simp only [mainCycle, if_neg h2, hb, if_true]
      rw [hr, String.append_assoc]
      exact ⟨_, rfl⟩
    · simp only [Bool.not_eq_true] at hb
      simp only [mainCycle, if_neg h2, hb, Bool.false_eq_true, if_false]
      rw [hr, String.append_assoc]
      exact ⟨_, rfl⟩

/-- C8: with pairwise distinct site names, when the remote count
operation of any single (site, window) cell — before, spike or after —
fails, that cell's count is `0`; the same site's two other cells and
every other site's cells are exactly what they are under any oracle that
agrees everywhere outside the failed cell; and the cycle still completes
and assembles a report. -/
theorem cell_failure_isolation (o o' : CountOracle) (sites : List Site) (t : Int) (s₀ : Site)
    (k : WinKind)
    (hnd : (sites.map Site.site_name).Nodup) (hs : s₀ ∈ sites)
    (hfail : o s₀ (winOf k t) = none)
    (hagree : ∀ s w, ¬(s = s₀ ∧ w = winOf k t) → o' s w = o s w) :
    (pyLookup (getLogCountsForSites o sites t) s₀.site_name =
        some (expectedCounts o s₀ t) ∧
      cellOf (expectedCounts o s₀ t) k = 0 ∧
      pyLookup (getLogCountsForSites o' sites t) s₀.site_name =
        some (expectedCounts o' s₀ t) ∧
      (∀ k' : WinKind, k' ≠ k →
        cellOf (expectedCounts o s₀ t) k' = cellOf (expectedCounts o' s₀ t) k')) ∧
    (∀ s ∈ sites, s.site_name ≠ s₀.site_name →
      pyLookup (getLogCountsForSites o sites t) s.site_name =
        pyLookup (getLogCountsForSites o' sites t) s.site_name) ∧
    (∀ env : CycleEnv, env.cpu ≠ [] → env.sites ≠ [] →
      ∃ tail, (runCycle env).report = "\nEC2 Status: " ++ tail) := by
  refine ⟨⟨counts_cell_characterization o sites t s₀ hnd hs, ?_,
    counts_cell_characterization o' sites t s₀ hnd hs, ?_⟩, ?_, ?_⟩
  · rw [cellOf_expected, hfail]
    rfl
  · intro k' hk
    have hagr : o' s₀ (winOf k' t) = o s₀ (winOf k' t) :=
      hagree s₀ (winOf k' t) (fun hx => winOf_ne k' k t hk hx.2)
    rw [cellOf_expected, cellOf_expected, hagr]
  · intro s hmem hne
    have hsne : s ≠ s₀ := fun hx => hne (hx ▸ rfl)
    rw [counts_cell_characterization o sites t s hnd hmem,
      counts_cell_characterization o' sites t s hnd hmem]
    show some (expectedCounts o s t) = some (expectedCounts o' s t)
    unfold expectedCounts
    rw [hagree s (preWindow t) (fun hx => hsne hx.1),
      hagree s (spikeWindow t) (fun hx => hsne hx.1),
      hagree s (postWindow t) (fun hx => hsne hx.1)]
  · intro env h1 h2
    exact runCycle_report_head env h1 h2

/-! ## Claim C6: the no-culprit rule -/

/-- C6: when every service's magnitude is zero (in particular when
before = spike = after for every service), the attribution result has no
attributed service, and the cycle takes the "Could not identify a clear
Spike website" degraded path without invoking the detailed log fetch. -/
theorem no_culprit_rule :
    (∀ counts : List (String × Counts), (∀ sc ∈ counts, siteMagnitude sc.2 = 0) →
      attributeSpike counts = (none, 0)) ∧
    (∀ (env : CycleEnv) (p : CpuPoint) (rest : List CpuPoint),
      env.cpu = p :: rest → env.sites ≠ [] →
      (∀ sc ∈ cycleCounts env (runningMax p rest), siteMagnitude sc.2 = 0) →
      (runCycle env).calls = [Call.discovery, Call.counting, Call.attribution] ∧
      ∃ pre, (runCycle env).report =
        pre ++ "\nCould not identify a clear Spike website from log data.\n") := by
  constructor
  · intro counts h
    exact attrAux_all_zero counts none h
  · intro env p rest hcpu hsites hzero
    have hatt : attributeSpike (cycleCounts env (runningMax p rest)) = (none, 0) :=
      attrAux_all_zero _ none hzero
    have hsite : cycleSpikeSite env (runningMax p rest) = none := by
      unfold cycleSpikeSite
      rw [hatt]
    have hfetch : cycleDoFetch env (runningMax p rest) = false := by
      unfold cycleDoFetch
      rw [hsite]
      rfl
    rw [runCycle_cons env p rest hcpu]
    refine ⟨?_, ?_⟩
    · simp only [mainCycle, if_neg hsites, hfetch, Bool.false_eq_true, if_false]
    · simp only [mainCycle, if_neg hsites, hfetch, Bool.false_eq_true, if_false]
      exact ⟨mkBaseReport env (runningMax p rest), rfl⟩

/-- A cycle environment whose remote counts are identical in all three
windows, so every site's magnitude is zero. -/
def envAllEqual : CycleEnv where
  state := "running"
  systemStatus := "ok"
  instanceStatus := "ok"
  cpu := [⟨0, 5⟩]
  sites := [⟨"alpha", "/var/www/alpha/logs/access.log"⟩]
  countOracle := fun _ _ => some 4
  fetchOracle := fun _ _ _ => Except.ok ""
  fmtTs := fun _ => "t"
  fmtQ := fun _ => "q"

/-- Witness for C6: constant counts across windows leave the attributor
empty-handed and the cycle on the degraded path. -/
theorem no_culprit_rule_witness :
    (runCycle envAllEqual).calls = [Call.discovery, Call.counting, Call.attribution] ∧
    ∃ pre, (runCycle envAllEqual).report =
      pre ++ "\nCould not identify a clear Spike website from log data.\n" :=
  no_culprit_rule.2 envAllEqual ⟨0, 5⟩ [] rfl (by decide) (by decide)

/-! ## Claims C7 and C9: the degraded paths -/

/-- An environment whose CPU metric fetch came back empty. -/
def envEmptyCpu : CycleEnv where
  state := "running"
  systemStatus := "ok"
  instanceStatus := "ok"
  cpu := []
  sites := [⟨"alpha", "/var/www/alpha/logs/access.log"⟩]
  countOracle := fun _ _ => some 4
  fetchOracle := fun _ _ _ => Except.ok ""
  fmtTs := fun _ => "t"
  fmtQ := fun _ => "q"

/-- C7 counterexample: on an empty metric sequence the code skips every
downstream stage but sets `report = ""` — the emitted report is the
empty string and in particular does not contain the instance status
(here `"running"`), contrary to the claimed status-only report. -/
theorem empty_metric_report_counterexample :
    (runCycle envEmptyCpu).report = "" ∧ (runCycle envEmptyCpu).calls = [] ∧
    envEmptyCpu.state = "running" ∧
    ¬ List.IsInfix envEmptyCpu.state.data (runCycle envEmptyCpu).report.data := by
  refine ⟨rfl, rfl, rfl, ?_⟩
  intro h
  have hlen := h.length_le
  have h7 : envEmptyCpu.state.data.length = 7 := rfl
  have h0 : (runCycle envEmptyCpu).report.data.length = 0 := rfl
  omega

/-- C7 (amended): for an empty metric sequence the pipeline invokes no
downstream stage — no discovery, counting, attribution or fetch — and
emits the empty report (which carries no spike fields, and no instance
status either). -/
theorem empty_metric_skips_all (env : CycleEnv) (h : env.cpu = []) :
    runCycle env = { report := "", calls := [] } :=
  runCycle_nil env h

/-- Witness for the amended C7. -/
theorem empty_metric_skips_all_witness :
    runCycle envEmptyCpu = { report := "", calls := [] } :=
  empty_metric_skips_all envEmptyCpu rfl

/-- An environment whose service discovery found no Gunicorn site. -/
def envNoSites : CycleEnv where
  state := "running"
  systemStatus := "ok"
  instanceStatus := "ok"
  cpu := [⟨0, 5⟩]
  sites := []
  countOracle := fun _ _ => some 4
  fetchOracle := fun _ _ _ => Except.ok ""
  fmtTs := fun _ => "t"
  fmtQ := fun _ => "q"

/-- C9 counterexample: in the empty-discovery degraded path the code's
emitted report is the empty string — not a report populated with
explicit placeholder values, and not a report stating that no services
were found. -/
theorem degraded_report_counterexample :
    (runCycle envNoSites).report = "" ∧ (runCycle envNoSites).calls = [Call.discovery] ∧
    envNoSites.cpu ≠ [] ∧ envNoSites.sites = [] := by
  refine ⟨rfl, rfl, by decide, rfl⟩

/-- C9 (amended): both degraded paths still complete the cycle and hand
a report to the reasoning step, but that report is the empty string
rather than one populated with placeholders; the empty-metric path
invokes no stage and the empty-discovery path stops after discovery. -/
theorem degraded_paths_empty_report (env : CycleEnv) :
    (env.cpu = [] → runCycle env = { report := "", calls := [] }) ∧
    (∀ p rest, env.cpu = p :: rest → env.sites = [] →
      runCycle env = { report := "", calls := [Call.discovery] }) := by
  constructor
  · exact runCycle_nil env
  · intro p rest h hs
    rw [runCycle_cons env p rest h]
    simp only [mainCycle, if_pos hs]

/-- Witness for the amended C9 on both degraded paths. -/
theorem degraded_paths_empty_report_witness :
    runCycle envEmptyCpu = { report := "", calls := [] } ∧
    runCycle envNoSites = { report := "", calls := [Call.discovery] } :=
  ⟨(degraded_paths_empty_report envEmptyCpu).1 rfl,
   (degraded_paths_empty_report envNoSites).2 ⟨0, 5⟩ [] rfl rfl⟩

/-! ## Claim C4: the detailed fetch range -/

/-- The spec's end-to-end example environment: spike at `t = 60` with
value 85; two services `X` (counts 3/40/4, log `logpath1`) and `Y`
(counts 2/3/2, log `logpath2`). -/
def envFetch : CycleEnv where
  state := "running"
  systemStatus := "ok"
  instanceStatus := "ok"
  cpu := [⟨0, 10⟩, ⟨60, 85⟩, ⟨120, 20⟩]
  sites := [⟨"X", "logpath1"⟩, ⟨"Y", "logpath2"⟩]
  countOracle := fun s w =>
    if s.site_name = "X" then
      if w = preWindow 60 then some 3
      else if w = spikeWindow 60 then some 40
      else some 4
    else
      if w = preWindow 60 then some 2
      else if w = spikeWindow 60 then some 3
      else some 2
  fetchOracle := fun _ _ _ => Except.ok "log lines"
  fmtTs := fun _ => "t"
  fmtQ := fun _ => "q"

/-- C4 counterexample: in the spec's end-to-end example (spike at 60s)
the detailed fetch is invoked for `X`'s log over `[-540, 660]`, i.e. up
to `spike_time + 10min`; the SpikeWindow's `post_end` is
`spike_time + 11min = 720`, so the claimed fetch window end is not the
one used. -/
theorem fetch_range_counterexample :
    (runCycle envFetch).calls =
      [Call.discovery, Call.counting, Call.attribution,
       Call.fetchWindow "logpath1" (-540) 660] ∧
    postSpikeEnd 60 = 720 ∧ ((660 : Int) ≠ 720) := by
  refine ⟨by decide, rfl, by decide⟩

/-- C4 (amended): whenever the cycle performs the detailed log fetch, it
fetches over `[spike_time − 10min, spike_time + 10min]` — the loop's own
analysis window — whose end differs from the SpikeWindow's
`post_end = spike_time + 11min`. -/
theorem fetch_range_amended (env : CycleEnv) (p : CpuPoint) (rest : List CpuPoint)
    (h : env.cpu = p :: rest) (hs : env.sites ≠ [])
    (hf : cycleDoFetch env (runningMax p rest) = true) :
    (runCycle env).calls =
      [Call.discovery, Call.counting, Call.attribution,
       Call.fetchWindow ((cycleLogPath env (runningMax p rest)).getD "")
         ((runningMax p rest).ts - 600) ((runningMax p rest).ts + 600)] ∧
    postSpikeEnd (runningMax p rest).ts = (runningMax p rest).ts + 660 ∧
    (runningMax p rest).ts + 600 ≠ postSpikeEnd (runningMax p rest).ts := by
  rw [runCycle_cons env p rest h]
  refine ⟨?_, rfl, ?_⟩
  · simp only [mainCycle, if_neg hs, hf, if_true]
  · simp only [postSpikeEnd]
    omega

/-- Witness for the amended C4 at the end-to-end example. -/
theorem fetch_range_amended_witness :
    (runCycle envFetch).calls =
      [Call.discovery, Call.counting, Call.attribution,
       Call.fetchWindow ((cycleLogPath envFetch (runningMax ⟨0, 10⟩ [⟨60, 85⟩, ⟨120, 20⟩])).getD "")
         ((runningMax ⟨0, 10⟩ [⟨60, 85⟩, ⟨120, 20⟩]).ts - 600)
         ((runningMax ⟨0, 10⟩ [⟨60, 85⟩, ⟨120, 20⟩]).ts + 600)] ∧
    postSpikeEnd (runningMax ⟨0, 10⟩ [⟨60, 85⟩, ⟨120, 20⟩]).ts =
      (runningMax ⟨0, 10⟩ [⟨60, 85⟩, ⟨120, 20⟩]).ts + 660 ∧
    (runningMax ⟨0, 10⟩ [⟨60, 85⟩, ⟨120, 20⟩]).ts + 600 ≠
      postSpikeEnd (runningMax ⟨0, 10⟩ [⟨60, 85⟩, ⟨120, 20⟩]).ts :=
  fetch_range_amended envFetch ⟨0, 10⟩ [⟨60, 85⟩, ⟨120, 20⟩] rfl (by decide) (by decide)

/-- Witness for C10 at the end-to-end example: the attributed site `X`
has a successful path lookup. -/
theorem attributed_site_path_lookup_witness :
    ∃ s, envFetch.sites.find? (fun s => s.site_name == "X") = some s ∧
      (envFetch.sites.find? (fun s => s.site_name == "X")).map Site.access_log_path =
        some s.access_log_path :=
  attributed_site_path_lookup envFetch.countOracle envFetch.sites 60 "X" 37 (by decide)

/-! ## Witness material for C8 -/

/-- A concrete site used in the C8 witness. -/
def siteAlpha : Site := ⟨"alpha", "pa"⟩

/-- Two discovered sites with distinct names. -/
def twoSites : List Site := [siteAlpha, ⟨"beta", "pb"⟩]

/-- An oracle failing exactly on `alpha`'s spike-minute cell at spike
time 1000 and returning `5` everywhere else. -/
def failOracle : CountOracle := fun s w =>
  if s = siteAlpha ∧ w = spikeWindow 1000 then none else some 5

/-- The same oracle with the failing cell repaired to `9`. -/
def fixedOracle : CountOracle := fun s w =>
  if s = siteAlpha ∧ w = spikeWindow 1000 then some 9 else failOracle s w

/-- Witness for C8 with a failing spike-minute cell: that cell degrades
to `0`, the same site's before/after cells and the other site's entry
are untouched by the failure, and the cycle still assembles a report. -/
theorem cell_failure_isolation_witness :
    (pyLookup (getLogCountsForSites failOracle twoSites 1000) "alpha" =
        some (expectedCounts failOracle siteAlpha 1000) ∧
      cellOf (expectedCounts failOracle siteAlpha 1000) WinKind.spike = 0 ∧
      pyLookup (getLogCountsForSites fixedOracle twoSites 1000) "alpha" =
        some (expectedCounts fixedOracle siteAlpha 1000) ∧
      (∀ k' : WinKind, k' ≠ WinKind.spike →
        cellOf (expectedCounts failOracle siteAlpha 1000) k' =
          cellOf (expectedCounts fixedOracle siteAlpha 1000) k')) ∧
    pyLookup (getLogCountsForSites failOracle twoSites 1000) "beta" =
      pyLookup (getLogCountsForSites fixedOracle twoSites 1000) "beta" ∧
    (∃ tail, (runCycle envFetch).report = "\nEC2 Status: " ++ tail) := by
  have h := cell_failure_isolation failOracle fixedOracle twoSites 1000 siteAlpha WinKind.spike
    (by decide) (by decide) (by decide)
    (fun s w hne => by
      simp only [winOf] at hne
      simp only [fixedOracle]
      rw [if_neg hne])
  exact ⟨h.1, h.2.1 ⟨"beta", "pb"⟩ (by decide) (by decide),
    h.2.2 envFetch (by decide) (by decide)⟩
